import Mathlib

/- Shallow embedding of the data-acquisition core of the tail-end-analysis
repository: the cursor-paginated bulk market fetcher
(src/etl/1_fetch_markets.py and src/etl/1_continue_fetch_markets.py) and the
per-market chunked candlestick fetcher (src/etl/3_fetch_candlesticks.py).

The network is modelled by passing in the sequence of responses that the HTTP
requests would receive, one entry per attempted request; every `time.sleep`
performed by the retry logic is recorded in an output list of waited
durations.  Python truthiness of the optional numeric and string fields that
the scripts read out of JSON documents is modelled explicitly. -/

/- Python truthiness of an optional integer field (`None` and `0` are falsy). -/
def py_truthy (o : Option Nat) : Bool :=
  match o with
  | none => false
  | some n => decide (n ≠ 0)

/- Python truthiness of an optional string field (`None` and `""` are falsy). -/
def py_truthy_str (o : Option String) : Bool :=
  match o with
  | none => false
  | some s => decide (s ≠ "")

/- One candlestick as the dedup/sort code of 3_fetch_candlesticks.py sees it:
only `end_period_ts` and `period_interval` are inspected (both may be missing
from the JSON document); the rest of the document is opaque (`payload`). -/
structure Candle where
  end_period_ts : Option Nat
  period_interval : Option Nat
  payload : Nat
deriving DecidableEq, Repr

/- One HTTP response observed by a single attempt of the candlestick retry
loop: either a status response (with optional Retry-After header, and the
parsed `candlesticks` list when the body is read), or a network-level
exception (requests.exceptions.RequestException). -/
inductive HttpResp where
  | status (code : Nat) (retryAfter : Option Nat) (candlesticks : List Candle)
  | netErr
deriving DecidableEq, Repr

/- `retry_delay * (2 ** attempt)`: the backoff expression of
3_fetch_candlesticks.py (lines 47, 55, 70, 137, 151, 155). -/
def chunk_wait_time (retry_delay attempt : Nat) : Nat := retry_delay * 2 ^ attempt

/- The retry loop of fetch_candlesticks_chunked (3_fetch_candlesticks.py,
lines 41-78): `for attempt in range(max_retries)`.  `fuel` is the number of
loop iterations remaining (`max_retries - attempt`); the result is the
`chunk_candles` value at loop exit paired with the list of sleeps performed.
A 429 sleeps (Retry-After header taking precedence over the backoff value)
and continues; any other non-200 status and any network error sleep and
continue while `attempt < max_retries - 1`, else break with no candles;
a 200 breaks with the parsed candles. -/
def candlestick_retry_go (retry_delay max_retries : Nat) :
    Nat → Nat → List HttpResp → List Candle × List Nat
  | _, 0, _ => ([], [])
  | _, _ + 1, [] => ([], [])
  | attempt, fuel + 1, HttpResp.netErr :: rest =>
    if attempt < max_retries - 1 then
      let r := candlestick_retry_go retry_delay max_retries (attempt + 1) fuel rest
      (r.1, chunk_wait_time retry_delay attempt :: r.2)
    else ([], [])
  | attempt, fuel + 1, HttpResp.status code retryAfter candles :: rest =>
    if code = 429 then
      let w := retryAfter.getD (chunk_wait_time retry_delay attempt)
      let r := candlestick_retry_go retry_delay max_retries (attempt + 1) fuel rest
      (r.1, w :: r.2)
    else if code ≠ 200 then
      if attempt < max_retries - 1 then
        let r := candlestick_retry_go retry_delay max_retries (attempt + 1) fuel rest
        (r.1, chunk_wait_time retry_delay attempt :: r.2)
      else ([], [])
    else (candles, [])

/- One chunk's retry-wrapped fetch: the loop entered with attempt 0. -/
def fetch_chunk (retry_delay max_retries : Nat) (resps : List HttpResp) :
    List Candle × List Nat :=
  candlestick_retry_go retry_delay max_retries 0 max_retries resps

/- One market record as the bulk fetcher sees it: the `ticker` used as the
upsert key, the rest opaque. -/
structure Market where
  ticker : String
  payload : Nat
deriving DecidableEq, Repr

/- The parsed JSON document of one successful page response of the markets
endpoint: an optional embedded `error` field, the `markets` list, and the
optional pagination `cursor` (missing or `""` signals exhaustion). -/
structure Page where
  hasError : Bool
  markets : List Market
  cursor : Option String
deriving DecidableEq, Repr

/- One response observed by a single attempt of the bulk fetcher's retry loop
(1_continue_fetch_markets.py, lines 50-86): an HTTP status response (whose
Retry-After header that loop never reads is still modelled) or a
network-level exception. -/
inductive BulkAttempt where
  | resp (code : Nat) (retryAfter : Option Nat) (page : Page)
  | netErr
deriving DecidableEq, Repr

/- `2 ** retry_count`: the backoff expression of 1_continue_fetch_markets.py
(lines 58 and 75), evaluated after `retry_count` has been incremented. -/
def bulk_wait_time (retry_count : Nat) : Nat := 2 ^ retry_count

/- The retry loop of continue_fetch_markets (1_continue_fetch_markets.py,
lines 48-86): `while retry_count < max_retries`.  `fuel` is the number of
failures still tolerated (`max_retries - retry_count`).  A 500 increments
`retry_count` and sleeps `2 ** retry_count` if retries remain, else breaks
with no data; any other status ≥ 400 raises through `raise_for_status` into
the RequestException handler, which does the same; a success breaks with the
parsed page.  No branch reads the Retry-After header. -/
def page_retry_go (max_retries : Nat) :
    Nat → Nat → List BulkAttempt → Option Page × List Nat
  | _, 0, _ => (none, [])
  | _, _ + 1, [] => (none, [])
  | retry_count, fuel + 1, BulkAttempt.netErr :: rest =>
    if retry_count + 1 < max_retries then
      let r := page_retry_go max_retries (retry_count + 1) fuel rest
      (r.1, bulk_wait_time (retry_count + 1) :: r.2)
    else (none, [])
  | retry_count, fuel + 1, BulkAttempt.resp code _ pg :: rest =>
    if code = 500 then
      if retry_count + 1 < max_retries then
        let r := page_retry_go max_retries (retry_count + 1) fuel rest
        (r.1, bulk_wait_time (retry_count + 1) :: r.2)
      else (none, [])
    else if 400 ≤ code then
      if retry_count + 1 < max_retries then
        let r := page_retry_go max_retries (retry_count + 1) fuel rest
        (r.1, bulk_wait_time (retry_count + 1) :: r.2)
      else (none, [])
    else (some pg, [])

/- One page's retry-wrapped fetch: the loop entered with retry_count 0. -/
def fetch_page (max_retries : Nat) (attempts : List BulkAttempt) :
    Option Page × List Nat :=
  page_retry_go max_retries 0 max_retries attempts

/- The mutable state of one bulk-fetch run: the in-memory `buffer`, the
batches already handed to `write_batch` (the persistence sink), the
`all_markets` accumulator, and the `total_fetched` counter. -/
structure BulkState where
  buffer : List Market
  flushed : List (List Market)
  all_markets : List Market
  total_fetched : Nat
deriving DecidableEq, Repr

/- The per-record body shared by 1_fetch_markets.py (lines 48-57) and
1_continue_fetch_markets.py (lines 101-110): append to buffer and
all_markets, bump the counter, and flush-and-clear the buffer once its
length reaches `batch_size`. -/
def process_market (batch_size : Nat) (s : BulkState) (m : Market) : BulkState :=
  let buf := s.buffer ++ [m]
  if batch_size ≤ buf.length then
    { buffer := [], flushed := s.flushed ++ [buf],
      all_markets := s.all_markets ++ [m], total_fetched := s.total_fetched + 1 }
  else
    { buffer := buf, flushed := s.flushed,
      all_markets := s.all_markets ++ [m], total_fetched := s.total_fetched + 1 }

/- The `for market in markets` loop of both bulk fetchers, with its inner
`if total_fetched >= max_markets: break`. -/
def process_markets (max_markets batch_size : Nat) :
    BulkState → List Market → BulkState
  | s, [] => s
  | s, m :: rest =>
    if max_markets ≤ s.total_fetched then s
    else process_markets max_markets batch_size (process_market batch_size s m) rest

/- The `if buffer: write_batch(buffer, collection)` epilogue that both bulk
fetchers run after their paging loop exits (1_fetch_markets.py lines 64-65,
1_continue_fetch_markets.py lines 121-122). -/
def final_flush (s : BulkState) : BulkState :=
  if s.buffer = [] then s else { s with flushed := s.flushed ++ [s.buffer] }

/- Everything a run has handed to the persistence sink, in order. -/
def sink_records (s : BulkState) : List Market := s.flushed.flatten

/- One response per page request of fetch_markets_by_status, which wraps no
retry logic around the request: any exception (including raise_for_status)
ends the run. -/
inductive SingleResp where
  | fail
  | ok (pg : Page)
deriving DecidableEq, Repr

/- The paging loop of fetch_markets_by_status (1_fetch_markets.py,
lines 26-62): stop on exhausted budget, request failure, embedded error
document, empty page, or missing cursor; otherwise process the page's
records and continue with the next response. -/
def fetch_markets_loop (max_markets batch_size : Nat) :
    BulkState → List SingleResp → BulkState
  | s, [] => s
  | s, r :: rest =>
    if max_markets ≤ s.total_fetched then s
    else
      match r with
      | SingleResp.fail => s
      | SingleResp.ok pg =>
        if pg.hasError then s
        else if pg.markets = [] then s
        else
          let s' := process_markets max_markets batch_size s pg.markets
          if py_truthy_str pg.cursor then fetch_markets_loop max_markets batch_size s' rest
          else s'

/- fetch_markets_by_status (1_fetch_markets.py, lines 4-67): run the paging
loop from an empty state, then flush whatever the buffer still holds. -/
def fetch_markets_by_status (max_markets batch_size : Nat)
    (resps : List SingleResp) : BulkState :=
  final_flush (fetch_markets_loop max_markets batch_size
    { buffer := [], flushed := [], all_markets := [], total_fetched := 0 } resps)

/- The paging loop of continue_fetch_markets (1_continue_fetch_markets.py,
lines 41-119): as above, but each page request is retry-wrapped
(`fetch_page`), and a page whose retries exhaust (no data) ends the run. -/
def continue_fetch_loop (max_markets batch_size max_retries : Nat) :
    BulkState → List (List BulkAttempt) → BulkState
  | s, [] => s
  | s, attempts :: rest_pages =>
    if max_markets ≤ s.total_fetched then s
    else
      match (fetch_page max_retries attempts).1 with
      | none => s
      | some pg =>
        if pg.hasError then s
        else if pg.markets = [] then s
        else
          let s' := process_markets max_markets batch_size s pg.markets
          if py_truthy_str pg.cursor then
            continue_fetch_loop max_markets batch_size max_retries s' rest_pages
          else s'

/- continue_fetch_markets (1_continue_fetch_markets.py, lines 5-124): the
paging loop started with `total_fetched = initial_count` (the operator's
already-fetched count) and an empty buffer, then the final flush. -/
def continue_fetch_markets (initial_count max_markets batch_size max_retries : Nat)
    (pages : List (List BulkAttempt)) : BulkState :=
  final_flush (continue_fetch_loop max_markets batch_size max_retries
    { buffer := [], flushed := [], all_markets := [], total_fetched := initial_count } pages)

/- The value Python builds as the dedup key at 3_fetch_candlesticks.py line
261: `(ts, interval) if ts and interval else ts`.  A bare timestamp and a
(timestamp, interval) tuple are never equal in Python, so they are distinct
constructors here. -/
inductive PyKey where
  | scalar (ts : Option Nat)
  | tuple (ts interval : Nat)
deriving DecidableEq, Repr

/- `key = (ts, interval) if ts and interval else ts` (line 261). -/
def candle_key (c : Candle) : PyKey :=
  if py_truthy c.end_period_ts && py_truthy c.period_interval then
    PyKey.tuple (c.end_period_ts.getD 0) (c.period_interval.getD 0)
  else PyKey.scalar c.end_period_ts

/- Python truthiness of the key: a nonempty tuple is always truthy, a bare
timestamp is truthy when it is neither None nor 0 (`if key and ...`, line 262). -/
def key_truthy : PyKey → Bool
  | PyKey.scalar o => py_truthy o
  | PyKey.tuple _ _ => true

/- The dedup loop of 3_fetch_candlesticks.py lines 256-264: walk the merged
candles keeping a `seen_keys` set; a candle is kept iff its key is truthy and
unseen, in which case its key is added to the set. -/
def dedup_go (seen : List PyKey) : List Candle → List Candle
  | [] => []
  | c :: rest =>
    let key := candle_key c
    if key_truthy key ∧ key ∉ seen then c :: dedup_go (key :: seen) rest
    else dedup_go seen rest

def dedup_candles (cs : List Candle) : List Candle := dedup_go [] cs

/- The sort key of line 267: `x.get("end_period_ts", 0)`. -/
def sort_key (c : Candle) : Nat := c.end_period_ts.getD 0

def candle_le (a b : Candle) : Prop := sort_key a ≤ sort_key b

instance : DecidableRel candle_le := fun a b => Nat.decLe (sort_key a) (sort_key b)

instance : IsTotal Candle candle_le := ⟨fun a b => Nat.le_total (sort_key a) (sort_key b)⟩

instance : IsTrans Candle candle_le :=
  ⟨fun _ _ _ hab hbc => Nat.le_trans hab hbc⟩

/- `unique_candlesticks.sort(key=lambda x: x.get("end_period_ts", 0))`
(line 267): a stable ascending sort on the timestamp. -/
def sort_candles (cs : List Candle) : List Candle := List.insertionSort candle_le cs

/- Dedup followed by sort, as main applies them to the merged candles. -/
def dedup_sort_candles (cs : List Candle) : List Candle :=
  sort_candles (dedup_candles cs)

/- A process-lifetime id-resolution cache (`event_to_series_cache`): a Python
dict from event ticker to series ticker, modelled as an association list on
which assignment overwrites in place. -/
def cache_get (cache : List (String × String)) (k : String) : Option String :=
  match cache with
  | [] => none
  | e :: rest => if e.1 = k then some e.2 else cache_get rest k

def cache_put (cache : List (String × String)) (k v : String) :
    List (String × String) :=
  match cache with
  | [] => [(k, v)]
  | e :: rest => if e.1 = k then (k, v) :: rest else e :: cache_put rest k v

/- The series-ticker resolution of main (3_fetch_candlesticks.py, lines
212-218): prefer the ticker embedded in the market record; else the cache;
else the retry-wrapped API lookup, whose result is cached only when truthy. -/
def resolve_series_ticker (cache : List (String × String))
    (market_series : Option String) (event_ticker : String)
    (lookup_result : Option String) :
    Option String × List (String × String) :=
  if py_truthy_str market_series then (market_series, cache)
  else if py_truthy_str (cache_get cache event_ticker) then
    (cache_get cache event_ticker, cache)
  else if py_truthy_str lookup_result then
    (lookup_result, cache_put cache event_ticker (lookup_result.getD ""))
  else (lookup_result, cache)

/- The candidate list of lines 221-224: the resolved series ticker when
truthy, then always the event ticker itself as fallback. -/
def build_candidates (series_ticker : Option String) (event_ticker : String) :
    List String :=
  (if py_truthy_str series_ticker then [series_ticker.getD ""] else []) ++ [event_ticker]

/- The candidate loop of main (lines 229-276): fetch all period intervals for
the candidate (`fetchf` yields the concatenation); an empty result moves on
to the next candidate; the first nonempty result is deduplicated and sorted,
the cache is updated only when the winning candidate differs from the event
ticker, and the loop breaks.  Returns (candlesticks, successful_series, cache). -/
def try_candidates (event_ticker : String) (fetchf : String → List Candle) :
    List String → List (String × String) →
    Option (List Candle) × Option String × List (String × String)
  | [], cache => (none, none, cache)
  | cand :: rest, cache =>
    let all_candlesticks := fetchf cand
    if all_candlesticks = [] then try_candidates event_ticker fetchf rest cache
    else
      let cache' :=
        if cand ≠ event_ticker then cache_put cache event_ticker cand else cache
      (some (dedup_sort_candles all_candlesticks), some cand, cache')

/- One response observed by a single attempt of get_series_ticker_for_event
(3_fetch_candlesticks.py, lines 126-163): a 429 (sleep per Retry-After or
backoff, then continue), a 2xx whose parsed `events` list carries each
event's optional `series_ticker` field, any other status, or a network
exception. -/
inductive LookupResp where
  | rate (retryAfter : Option Nat)
  | ok (events : List (Option String))
  | notOk (code : Nat)
  | netErr
deriving DecidableEq, Repr

/- The retry loop of get_series_ticker_for_event: return the first event's
series ticker as soon as one is truthy; in every other case sleep and move to
the next attempt while `attempt < max_retries - 1`, and fall out of the loop
with None otherwise.  `fuel` is `max_retries - attempt`. -/
def series_lookup_go (retry_delay max_retries : Nat) :
    Nat → Nat → List LookupResp → Option String
  | _, 0, _ => none
  | _, _ + 1, [] => none
  | attempt, fuel + 1, LookupResp.rate _ :: rest =>
    series_lookup_go retry_delay max_retries (attempt + 1) fuel rest
  | attempt, fuel + 1, LookupResp.ok events :: rest =>
    match events.head? with
    | some st =>
      if py_truthy_str st then st
      else if attempt < max_retries - 1 then
        series_lookup_go retry_delay max_retries (attempt + 1) fuel rest
      else none
    | none =>
      if attempt < max_retries - 1 then
        series_lookup_go retry_delay max_retries (attempt + 1) fuel rest
      else none
  | attempt, fuel + 1, LookupResp.notOk _ :: rest =>
    if attempt < max_retries - 1 then
      series_lookup_go retry_delay max_retries (attempt + 1) fuel rest
    else none
  | attempt, fuel + 1, LookupResp.netErr :: rest =>
    if attempt < max_retries - 1 then
      series_lookup_go retry_delay max_retries (attempt + 1) fuel rest
    else none

/- get_series_ticker_for_event entered with attempt 0. -/
def get_series_ticker_for_event (retry_delay max_retries : Nat)
    (resps : List LookupResp) : Option String :=
  series_lookup_go retry_delay max_retries 0 max_retries resps

/- The chunk enumeration of fetch_candlesticks_chunked (lines 28-87): the
`while chunk_start < end_ts` loop visits consecutive windows of width
`chunk_size_seconds` (the last clipped to `end_ts`).  With a zero width the
Python loop would not advance; the model returns no further windows there. -/
def chunk_windows (chunk_size_seconds end_ts : Nat) (chunk_start : Nat) :
    List (Nat × Nat) :=
  if h : chunk_start < end_ts then
    let chunk_end := min (chunk_start + chunk_size_seconds) end_ts
    if h2 : chunk_start < chunk_end then
      (chunk_start, chunk_end) :: chunk_windows chunk_size_seconds end_ts chunk_end
    else []
  else []
termination_by end_ts - chunk_start
decreasing_by
  have : chunk_end ≤ end_ts := Nat.min_le_right _ _
  omega

/- fetch_candlesticks_chunked (lines 7-89): for each window run the retry
loop against the responses its requests would see (`net`), and extend the
accumulator with whatever candles that chunk produced — an exhausted chunk
contributes nothing but never stops the walk. -/
def fetch_candlesticks_chunked (retry_delay max_retries chunk_size_seconds end_ts : Nat)
    (net : Nat × Nat → List HttpResp) (chunk_start : Nat) : List Candle :=
  if h : chunk_start < end_ts then
    let chunk_end := min (chunk_start + chunk_size_seconds) end_ts
    if h2 : chunk_start < chunk_end then
      (fetch_chunk retry_delay max_retries (net (chunk_start, chunk_end))).1
        ++ fetch_candlesticks_chunked retry_delay max_retries chunk_size_seconds end_ts
             net chunk_end
    else []
  else []
termination_by end_ts - chunk_start
decreasing_by
  have : chunk_end ≤ end_ts := Nat.min_le_right _ _
  omega

/- The per-market outcome that main's tally loop (lines 200-301) classifies:
a market skipped for missing fields, or the `candlesticks` value left by the
candidate loop (None when every candidate came up empty). -/
inductive MarketOutcome where
  | missingFields
  | fetched (candlesticks : Option (List Candle))
deriving DecidableEq, Repr

/- The counter updates of main: `skip_count` for missing fields,
`success_count` when `candlesticks` is truthy (nonempty), `error_count`
otherwise.  Returns (success_count, skip_count, error_count). -/
def run_tally_go (acc : Nat × Nat × Nat) : List MarketOutcome → Nat × Nat × Nat
  | [] => acc
  | MarketOutcome.missingFields :: rest =>
    run_tally_go (acc.1, acc.2.1 + 1, acc.2.2) rest
  | MarketOutcome.fetched none :: rest =>
    run_tally_go (acc.1, acc.2.1, acc.2.2 + 1) rest
  | MarketOutcome.fetched (some cs) :: rest =>
    if cs = [] then run_tally_go (acc.1, acc.2.1, acc.2.2 + 1) rest
    else run_tally_go (acc.1 + 1, acc.2.1, acc.2.2) rest

def run_tally (outcomes : List MarketOutcome) : Nat × Nat × Nat :=
  run_tally_go (0, 0, 0) outcomes

/- The classification main's tally implements: a market counts as a success
exactly when its `candlesticks` value is truthy (a nonempty list), as a skip
when required fields were missing, and as an error otherwise. -/
def outcome_success : MarketOutcome → Bool
  | MarketOutcome.fetched (some cs) => decide (cs ≠ [])
  | _ => false

def outcome_skip : MarketOutcome → Bool
  | MarketOutcome.missingFields => true
  | _ => false

def outcome_error (o : MarketOutcome) : Bool :=
  !(outcome_success o) && !(outcome_skip o)

/- Concrete network traces used to evaluate the models at specific inputs. -/

/- A candidate fetch in which only the event ticker "E" yields data. -/
def c3_fetch : String → List Candle :=
  fun t => if t = "E" then [⟨some 100, some 1440, 1⟩] else []

/- The overlapping-chunk example of the specification: chunk A yields
timestamps 100 and 200, chunk B yields 200 (a second copy) and 300. -/
def c5_merged : List Candle :=
  [⟨some 100, some 1440, 1⟩, ⟨some 200, some 1440, 2⟩,
   ⟨some 200, some 1440, 20⟩, ⟨some 300, some 1440, 3⟩]

/- A network in which the first chunk window (starting at 0) answers 500 on
every attempt and every later window succeeds with one candle. -/
def c6_net : Nat × Nat → List HttpResp :=
  fun w =>
    if w.1 = 0 then
      [HttpResp.status 500 none [], HttpResp.status 500 none [], HttpResp.status 500 none []]
    else [HttpResp.status 200 none [⟨some 50, some 1440, 0⟩]]

/- A single page of three markets with no continuation cursor. -/
def c4_page : Page :=
  ⟨false, [⟨"M1", 1⟩, ⟨"M2", 2⟩, ⟨"M3", 3⟩], none⟩

/- A single page of one market with no continuation cursor. -/
def c7_page : Page :=
  ⟨false, [⟨"A", 7⟩], none⟩

/- Helper lemmas about the shared per-record body and the paging loops. -/

theorem process_market_flatten (B : Nat) (s : BulkState) (m : Market) :
    (process_market B s m).flushed.flatten ++ (process_market B s m).buffer
      = s.flushed.flatten ++ s.buffer ++ [m] := by
  simp only [process_market]
  split_ifs <;> simp

theorem process_market_all (B : Nat) (s : BulkState) (m : Market) :
    (process_market B s m).all_markets = s.all_markets ++ [m] := by
  simp only [process_market]
  split_ifs <;> simp

theorem process_markets_inv (maxM B : Nat) (ms : List Market) :
    ∀ s : BulkState, s.flushed.flatten ++ s.buffer = s.all_markets →
      (process_markets maxM B s ms).flushed.flatten ++ (process_markets maxM B s ms).buffer
        = (process_markets maxM B s ms).all_markets := by
  induction ms with
  | nil => intro s hs; simpa [process_markets] using hs
  | cons m rest ih =>
    intro s hs
    by_cases h : maxM ≤ s.total_fetched
    · simpa [process_markets, h] using hs
    · have hinv : (process_market B s m).flushed.flatten ++ (process_market B s m).buffer
          = (process_market B s m).all_markets := by
        rw [process_market_flatten, process_market_all, hs]
      simpa [process_markets, h] using ih _ hinv

theorem fetch_markets_loop_inv (maxM B : Nat) (resps : List SingleResp) :
    ∀ s : BulkState, s.flushed.flatten ++ s.buffer = s.all_markets →
      (fetch_markets_loop maxM B s resps).flushed.flatten
          ++ (fetch_markets_loop maxM B s resps).buffer
        = (fetch_markets_loop maxM B s resps).all_markets := by
  induction resps with
  | nil => intro s hs; simpa [fetch_markets_loop] using hs
  | cons r rest ih =>
    intro s hs
    cases r with
    | fail =>
      by_cases h : maxM ≤ s.total_fetched <;> simpa [fetch_markets_loop, h] using hs
    | ok pg =>
      by_cases h : maxM ≤ s.total_fetched
      · simpa [fetch_markets_loop, h] using hs
      · by_cases he : pg.hasError
        · simpa [fetch_markets_loop, h, he] using hs
        · by_cases hm : pg.markets = []
          · simpa [fetch_markets_loop, h, he, hm] using hs
          · have hinv := process_markets_inv maxM B pg.markets s hs
            by_cases hc : py_truthy_str pg.cursor = true
            · simpa [fetch_markets_loop, h, he, hm, hc] using ih _ hinv
            · simpa [fetch_markets_loop, h, he, hm, hc] using hinv

theorem continue_fetch_loop_inv (maxM B maxR : Nat) (pages : List (List BulkAttempt)) :
    ∀ s : BulkState, s.flushed.flatten ++ s.buffer = s.all_markets →
      (continue_fetch_loop maxM B maxR s pages).flushed.flatten
          ++ (continue_fetch_loop maxM B maxR s pages).buffer
        = (continue_fetch_loop maxM B maxR s pages).all_markets := by
  induction pages with
  | nil => intro s hs; simpa [continue_fetch_loop] using hs
  | cons attempts rest ih =>
    intro s hs
    by_cases h : maxM ≤ s.total_fetched
    · simpa [continue_fetch_loop, h] using hs
    · match hr : (fetch_page maxR attempts).1 with
      | none => simpa [continue_fetch_loop, h, hr] using hs
      | some pg =>
        by_cases he : pg.hasError
        · simpa [continue_fetch_loop, h, hr, he] using hs
        · by_cases hm : pg.markets = []
          · simpa [continue_fetch_loop, h, hr, he, hm] using hs
          · have hinv := process_markets_inv maxM B pg.markets s hs
            by_cases hc : py_truthy_str pg.cursor = true
            · simpa [continue_fetch_loop, h, hr, he, hm, hc] using ih _ hinv
            · simpa [continue_fetch_loop, h, hr, he, hm, hc] using hinv

theorem final_flush_sink (s : BulkState)
    (hs : s.flushed.flatten ++ s.buffer = s.all_markets) :
    sink_records (final_flush s) = s.all_markets := by
  unfold final_flush sink_records
  by_cases hb : s.buffer = []
  · simp only [if_pos hb]
    simpa [hb] using hs
  · simp only [if_neg hb]
    simpa using hs

theorem final_flush_all (s : BulkState) :
    (final_flush s).all_markets = s.all_markets := by
  unfold final_flush
  by_cases hb : s.buffer = [] <;> simp [hb]

/- The full wait schedule of the bulk retry loop: `k` consecutive failures
starting at `retry_count = rc` followed by a success sleep
`2^(rc+1), ..., 2^(rc+k)` and deliver the page. -/
theorem page_retry_schedule (k : Nat) :
    ∀ rc fuel maxR pg rest, k < fuel → rc + k < maxR →
      page_retry_go maxR rc fuel
          (List.replicate k BulkAttempt.netErr ++ BulkAttempt.resp 200 none pg :: rest)
        = (some pg, (List.range k).map fun i => bulk_wait_time (rc + i + 1)) := by
  induction k with
  | zero =>
    intro rc fuel maxR pg rest hk hrc
    cases fuel with
    | zero => omega
    | succ fuel => simp [page_retry_go]
  | succ k ih =>
    intro rc fuel maxR pg rest hk hrc
    cases fuel with
    | zero => omega
    | succ fuel =>
      have h1 : rc + 1 < maxR := by omega
      have hrec := ih (rc + 1) fuel maxR pg rest (by omega) (by omega)
      simp only [List.replicate_succ, List.cons_append, page_retry_go, h1, if_pos,
        List.append_eq_has_append]
      rw [hrec]
      congr 1
      rw [List.range_succ_eq_map]
      simp only [List.map_cons, List.map_map]
      congr 1
      refine List.map_congr_left fun i _ => ?_
      simp only [Function.comp_apply]
      congr 1
      omega

/- The full wait schedule of the candlestick retry loop: `k` consecutive
failures starting at attempt `a` followed by a success sleep
`d·2^a, ..., d·2^(a+k-1)` and deliver the candles. -/
theorem chunk_retry_schedule (k : Nat) :
    ∀ a fuel d maxR cs rest, k < fuel → a + k < maxR →
      candlestick_retry_go d maxR a fuel
          (List.replicate k HttpResp.netErr ++ HttpResp.status 200 none cs :: rest)
        = (cs, (List.range k).map fun i => chunk_wait_time d (a + i)) := by
  induction k with
  | zero =>
    intro a fuel d maxR cs rest hk ha
    cases fuel with
    | zero => omega
    | succ fuel => simp [candlestick_retry_go]
  | succ k ih =>
    intro a fuel d maxR cs rest hk ha
    cases fuel with
    | zero => omega
    | succ fuel =>
      have h1 : a < maxR - 1 := by omega
      have hrec := ih (a + 1) fuel d maxR cs rest (by omega) (by omega)
      simp only [List.replicate_succ, List.cons_append, candlestick_retry_go, h1, if_pos,
        List.append_eq_has_append]
      rw [hrec]
      congr 1
      rw [List.range_succ_eq_map]
      simp only [List.map_cons, List.map_map]
      congr 1
      refine List.map_congr_left fun i _ => ?_
      simp only [Function.comp_apply]
      congr 1
      omega

/-- C1: the claim that an HTTP 4xx other than 429 aborts the current chunk
immediately with no retry is false at a concrete input: a 404 on attempt 0
(max_retries 3, retry_delay 1) performs a backoff sleep of 1 second and a
further attempt, which succeeds. -/
theorem c1_counterexample :
    fetch_chunk 1 3
        [HttpResp.status 404 none [], HttpResp.status 200 none [⟨some 5, some 1440, 0⟩]]
      = ([⟨some 5, some 1440, 0⟩], [1])
    ∧ (fetch_chunk 1 3
        [HttpResp.status 404 none [], HttpResp.status 200 none [⟨some 5, some 1440, 0⟩]]).2
      ≠ [] := by
  exact ⟨by decide, by decide⟩

/-- C1 (amended): an HTTP status other than 200 and other than 429 is treated
as retryable by both fetchers: while attempts remain it sleeps the backoff
value and retries; only on the final attempt does the candlestick fetcher
abandon the chunk (with no candles and no further sleep).  In the bulk
fetcher any status ≥ 400 other than the explicitly handled 500 flows through
raise_for_status into the same sleep-and-retry path. -/
theorem c1_retry_behavior :
    (∀ d maxR a code ra cs rest fuel, a < maxR - 1 → code ≠ 200 → code ≠ 429 →
      candlestick_retry_go d maxR a (fuel + 1) (HttpResp.status code ra cs :: rest)
        = ((candlestick_retry_go d maxR (a + 1) fuel rest).1,
            chunk_wait_time d a :: (candlestick_retry_go d maxR (a + 1) fuel rest).2))
    ∧ (∀ d maxR a code ra cs rest fuel, ¬ a < maxR - 1 → code ≠ 200 → code ≠ 429 →
      candlestick_retry_go d maxR a (fuel + 1) (HttpResp.status code ra cs :: rest)
        = ([], []))
    ∧ (∀ maxR rc code ra pg rest fuel, 400 ≤ code → rc + 1 < maxR →
      page_retry_go maxR rc (fuel + 1) (BulkAttempt.resp code ra pg :: rest)
        = ((page_retry_go maxR (rc + 1) fuel rest).1,
            bulk_wait_time (rc + 1) :: (page_retry_go maxR (rc + 1) fuel rest).2)) := by
  refine ⟨?_, ?_, ?_⟩
  · intro d maxR a code ra cs rest fuel h1 h2 h3
    simp [candlestick_retry_go, h1, h2, h3]
  · intro d maxR a code ra cs rest fuel h1 h2 h3
    simp [candlestick_retry_go, h1, h2, h3]
  · intro maxR rc code ra pg rest fuel h1 h2
    by_cases h5 : code = 500
    · simp [page_retry_go, h5, h2]
    · simp [page_retry_go, h5, h1, h2]

/-- C1 (amended) witness at a concrete input: a 404 on attempt 0 of 3 sleeps
`1 * 2^0` and hands over to attempt 1. -/
theorem c1_retry_behavior_witness :
    candlestick_retry_go 1 3 0 (2 + 1) (HttpResp.status 404 none [] :: [])
      = ((candlestick_retry_go 1 3 (0 + 1) 2 []).1,
          chunk_wait_time 1 0 :: (candlestick_retry_go 1 3 (0 + 1) 2 []).2) :=
  c1_retry_behavior.1 1 3 0 404 none [] [] 2 (by decide) (by decide) (by decide)

/-- C2: the claim that the wait after 0-based attempt `a` is `2^(a+1)` and
that a 429 Retry-After hint always takes precedence is false at concrete
inputs: the candlestick fetcher waits `retry_delay * 2^a` (1 second at
attempt 0 with the default retry_delay 1, not 2), and the bulk fetcher waits
2 seconds after a first-attempt 429 carrying Retry-After 5. -/
theorem c2_counterexample :
    (fetch_chunk 1 3 [HttpResp.status 500 none [], HttpResp.status 200 none []]).2 = [1]
    ∧ (1 : Nat) ≠ 2 ^ (0 + 1)
    ∧ (fetch_page 5 [BulkAttempt.resp 429 (some 5) ⟨false, [], none⟩,
         BulkAttempt.resp 200 none ⟨false, [], none⟩]).2 = [2]
    ∧ (2 : Nat) ≠ 5 := by
  exact ⟨by decide, by decide, by decide, by decide⟩

/-- C2 (amended): the bulk fetcher's waits after 0-based attempts 0..k-1 are
`2^1, ..., 2^k` and its retry path never reads the Retry-After header (a 429
with a hint still waits `2^(rc+1)`); the candlestick fetcher's waits are
`retry_delay * 2^a` (1, 2, 4 with the default retry_delay 1), and there a
429's explicit Retry-After hint `h` takes precedence, waiting exactly `h`. -/
theorem c2_backoff_schedule :
    (∀ k maxR pg rest, k < maxR →
      fetch_page maxR
          (List.replicate k BulkAttempt.netErr ++ BulkAttempt.resp 200 none pg :: rest)
        = (some pg, (List.range k).map fun i => 2 ^ (i + 1)))
    ∧ (∀ k d maxR cs rest, k < maxR →
      fetch_chunk d maxR
          (List.replicate k HttpResp.netErr ++ HttpResp.status 200 none cs :: rest)
        = (cs, (List.range k).map fun i => d * 2 ^ i))
    ∧ (∀ d maxR a fuel h cs rest,
      candlestick_retry_go d maxR a (fuel + 1) (HttpResp.status 429 (some h) cs :: rest)
        = ((candlestick_retry_go d maxR (a + 1) fuel rest).1,
            h :: (candlestick_retry_go d maxR (a + 1) fuel rest).2))
    ∧ (∀ maxR rc fuel h pg rest, rc + 1 < maxR →
      page_retry_go maxR rc (fuel + 1) (BulkAttempt.resp 429 (some h) pg :: rest)
        = ((page_retry_go maxR (rc + 1) fuel rest).1,
            2 ^ (rc + 1) :: (page_retry_go maxR (rc + 1) fuel rest).2)) := by
  refine ⟨?_, ?_, ?_, ?_⟩
  · intro k maxR pg rest hk
    have hsch := page_retry_schedule k 0 maxR maxR pg rest hk (by omega)
    rw [fetch_page, hsch]
    congr 1
    congr 1
    funext i
    simp [bulk_wait_time]
  · intro k d maxR cs rest hk
    have hsch := chunk_retry_schedule k 0 maxR d maxR cs rest hk (by omega)
    rw [fetch_chunk, hsch]
    congr 1
    congr 1
    funext i
    simp [chunk_wait_time]
  · intro d maxR a fuel h cs rest
    simp [candlestick_retry_go]
  · intro maxR rc fuel h pg rest h2
    simp [page_retry_go, h2, bulk_wait_time]

/-- C2 (amended) witness at a concrete input: two network failures then a
success in the bulk fetcher wait 2 then 4 seconds. -/
theorem c2_backoff_schedule_witness :
    fetch_page 5 (List.replicate 2 BulkAttempt.netErr
        ++ BulkAttempt.resp 200 none ⟨false, [], none⟩ :: [])
      = (some ⟨false, [], none⟩, (List.range 2).map fun i => 2 ^ (i + 1)) :=
  c2_backoff_schedule.1 2 5 ⟨false, [], none⟩ [] (by decide)

/- Helper lemmas about the dedup keys. -/

theorem key_truthy_ts {c : Candle} (h : key_truthy (candle_key c) = true) :
    py_truthy c.end_period_ts = true := by
  unfold candle_key at h
  by_cases hb : (py_truthy c.end_period_ts && py_truthy c.period_interval) = true
  · simp only [Bool.and_eq_true] at hb
    exact hb.1
  · rw [if_neg hb] at h
    exact h

theorem candle_key_fields {a b : Candle}
    (h1 : a.end_period_ts = b.end_period_ts) (h2 : a.period_interval = b.period_interval) :
    candle_key a = candle_key b := by
  unfold candle_key
  rw [h1, h2]

/- The full behaviour of the dedup loop: its output keys are distinct, every
kept candle is the first occurrence of its key in the input and its key is
truthy and previously unseen, and every truthy input key survives (either it
was already seen or it appears in the output). -/
theorem dedup_go_spec (cs : List Candle) : ∀ seen : List PyKey,
    ((dedup_go seen cs).map candle_key).Nodup
    ∧ (∀ c ∈ dedup_go seen cs,
        key_truthy (candle_key c) = true ∧ candle_key c ∉ seen
          ∧ cs.find? (fun d => candle_key d == candle_key c) = some c)
    ∧ (∀ c ∈ cs, key_truthy (candle_key c) = true →
        candle_key c ∈ seen ∨ candle_key c ∈ (dedup_go seen cs).map candle_key) := by
  induction cs with
  | nil =>
    intro seen
    exact ⟨by simp [dedup_go], by simp [dedup_go], by simp⟩
  | cons c rest ih =>
    intro seen
    by_cases hk : key_truthy (candle_key c) = true ∧ candle_key c ∉ seen
    · have hstep : dedup_go seen (c :: rest) = c :: dedup_go (candle_key c :: seen) rest := by
        simp only [dedup_go]
        rw [if_pos hk]
      obtain ⟨hN, hP2, hP3⟩ := ih (candle_key c :: seen)
      refine ⟨?_, ?_, ?_⟩
      · rw [hstep]
        simp only [List.map_cons, List.nodup_cons]
        refine ⟨?_, hN⟩
        intro hmem
        obtain ⟨c', hc', hkey⟩ := List.mem_map.mp hmem
        exact (hP2 c' hc').2.1 (by rw [hkey]; exact List.mem_cons_self _ _)
      · intro x hx
        rw [hstep] at hx
        rcases List.mem_cons.mp hx with rfl | hx'
        · exact ⟨hk.1, hk.2, List.find?_cons_of_pos _ (by simp)⟩
        · obtain ⟨ht, hnot, hfind⟩ := hP2 x hx'
          have hne : candle_key c ≠ candle_key x := by
            intro he
            exact hnot (he ▸ List.mem_cons_self _ _)
          refine ⟨ht, fun hmem => hnot (List.mem_cons_of_mem _ hmem), ?_⟩
          rw [List.find?_cons_of_neg _ (by simp [hne])]
          exact hfind
      · intro x hx ht
        rcases List.mem_cons.mp hx with rfl | hx'
        · right
          rw [hstep]
          simp
        · rcases hP3 x hx' ht with hin | hin
          · rcases List.mem_cons.mp hin with heq | hin'
            · right
              rw [hstep]
              simp [heq]
            · left
              exact hin'
          · right
            rw [hstep]
            simp only [List.map_cons]
            exact List.mem_cons_of_mem _ hin
    · have hstep : dedup_go seen (c :: rest) = dedup_go seen rest := by
        simp only [dedup_go]
        rw [if_neg hk]
      obtain ⟨hN, hP2, hP3⟩ := ih seen
      refine ⟨?_, ?_, ?_⟩
      · rw [hstep]
        exact hN
      · intro x hx
        rw [hstep] at hx
        obtain ⟨ht, hnot, hfind⟩ := hP2 x hx
        have hne : candle_key c ≠ candle_key x := by
          intro he
          exact hk ⟨by rw [he]; exact ht, by rw [he]; exact hnot⟩
        refine ⟨ht, hnot, ?_⟩
        rw [List.find?_cons_of_neg _ (by simp [hne])]
        exact hfind
      · intro x hx ht
        rcases List.mem_cons.mp hx with rfl | hx'
        · left
          by_contra hn
          exact hk ⟨ht, hn⟩
        · rcases hP3 x hx' ht with h1 | h1
          · left
            exact h1
          · right
            rw [hstep]
            exact h1

/-- C3: the claim that when the resolved grouping id yields nothing and the
secondary id wins, the cache is updated to the secondary id, is false at a
concrete input: with cache entry ("E", "G") and candidates ["G", "E"], "E"
wins but the winning-candidate cache update is guarded by
`candidate_series != event_ticker`, so the cache still maps "E" to "G". -/
theorem c3_counterexample :
    try_candidates "E" c3_fetch ["G", "E"] [("E", "G")]
      = (some [Candle.mk (some 100) (some 1440) 1], some "E", [("E", "G")])
    ∧ build_candidates (some "G") "E" = ["G", "E"]
    ∧ cache_get [("E", "G")] "E" ≠ some "E" := by
  exact ⟨by decide, by decide, by decide⟩

/-- C3 (amended): if the resolved grouping id G yields zero points and the
secondary id (the event ticker itself) yields a nonempty set, the final
result equals the secondary id's fetch after dedup and sort, and the cache is
left unchanged — the update happens only for a winning candidate that differs
from the event ticker. -/
theorem c3_fallback (cache : List (String × String)) (f : String → List Candle)
    (ev G : String) (hG : f G = []) (hS : f ev ≠ []) :
    try_candidates ev f (build_candidates (some G) ev) cache
      = (some (dedup_sort_candles (f ev)), some ev, cache) := by
  by_cases hg : py_truthy_str (some G) = true
  · simp [build_candidates, hg, try_candidates, hG, hS]
  · simp [build_candidates, hg, try_candidates, hS]

/-- C3 (amended) witness at a concrete input: candidate "G" empty, event
ticker "E" nonempty, empty cache stays empty. -/
theorem c3_fallback_witness :
    (c3_fetch "G" = [] ∧ c3_fetch "E" ≠ [])
    ∧ try_candidates "E" c3_fetch (build_candidates (some "G") "E") []
        = (some (dedup_sort_candles (c3_fetch "E")), some "E", []) :=
  ⟨⟨by decide, by decide⟩, c3_fallback [] c3_fetch "E" "G" (by decide) (by decide)⟩

/-- C5: merged candles whose points all carry truthy `end_period_ts` and
`period_interval` are deduplicated on the composite (timestamp, interval)
key keeping the first occurrence encountered, nothing else is dropped, and
the output is sorted ascending by timestamp. -/
theorem c5_dedup_order (cs : List Candle)
    (hwf : ∀ c ∈ cs, py_truthy c.end_period_ts = true ∧ py_truthy c.period_interval = true) :
    ((dedup_sort_candles cs).Pairwise fun a b =>
        ¬(a.end_period_ts = b.end_period_ts ∧ a.period_interval = b.period_interval))
    ∧ (∀ c ∈ dedup_sort_candles cs,
        cs.find? (fun d => candle_key d == candle_key c) = some c)
    ∧ (∀ c ∈ cs, ∃ c' ∈ dedup_sort_candles cs, candle_key c' = candle_key c)
    ∧ (dedup_sort_candles cs).Pairwise candle_le := by
  obtain ⟨hN, hP2, hP3⟩ := dedup_go_spec cs []
  have hperm : List.Perm (dedup_sort_candles cs) (dedup_candles cs) :=
    List.perm_insertionSort _ _
  refine ⟨?_, ?_, ?_, ?_⟩
  · have hN' : ((dedup_sort_candles cs).map candle_key).Nodup :=
      ((hperm.map candle_key).nodup_iff).mpr hN
    have hpw : (dedup_sort_candles cs).Pairwise fun a b => candle_key a ≠ candle_key b :=
      List.pairwise_map.mp hN'
    exact hpw.imp fun h hfields => h (candle_key_fields hfields.1 hfields.2)
  · intro c hc
    exact (hP2 c (hperm.mem_iff.mp hc)).2.2
  · intro c hc
    obtain ⟨h1, h2⟩ := hwf c hc
    have ht : key_truthy (candle_key c) = true := by
      simp [candle_key, key_truthy, h1, h2]
    rcases hP3 c hc ht with hin | hin
    · exact absurd hin (List.not_mem_nil _)
    · obtain ⟨c', hc', hkey⟩ := List.mem_map.mp hin
      exact ⟨c', hperm.mem_iff.mpr hc', hkey⟩
  · exact List.sorted_insertionSort candle_le (dedup_candles cs)

/-- C5 witness: the specification's own overlapping-chunk example (timestamps
100, 200, 200, 300 at resolution 1440) satisfies the hypothesis and all four
conclusions. -/
theorem c5_dedup_order_witness :
    (∀ c ∈ c5_merged, py_truthy c.end_period_ts = true ∧ py_truthy c.period_interval = true)
    ∧ (((dedup_sort_candles c5_merged).Pairwise fun a b =>
          ¬(a.end_period_ts = b.end_period_ts ∧ a.period_interval = b.period_interval))
        ∧ (∀ c ∈ dedup_sort_candles c5_merged,
            c5_merged.find? (fun d => candle_key d == candle_key c) = some c)
        ∧ (∀ c ∈ c5_merged, ∃ c' ∈ dedup_sort_candles c5_merged, candle_key c' = candle_key c)
        ∧ (dedup_sort_candles c5_merged).Pairwise candle_le) :=
  ⟨by decide, c5_dedup_order c5_merged (by decide)⟩

/-- C10: a fetched point whose `end_period_ts` is missing or 0 is dropped
from the deduplicated output entirely; a point with a truthy timestamp but a
missing or 0 `period_interval` is keyed by the bare timestamp, and two such
points with different `period_interval` values but the same timestamp
suppress one another. -/
theorem c10_falsy_fields :
    (∀ cs : List Candle, ∀ c ∈ dedup_sort_candles cs, py_truthy c.end_period_ts = true)
    ∧ (∀ c : Candle, py_truthy c.end_period_ts = true → py_truthy c.period_interval = false →
        candle_key c = PyKey.scalar c.end_period_ts)
    ∧ ((Candle.mk (some 100) none 1).period_interval
          ≠ (Candle.mk (some 100) (some 0) 2).period_interval
        ∧ dedup_sort_candles [Candle.mk (some 100) none 1, Candle.mk (some 100) (some 0) 2]
            = [Candle.mk (some 100) none 1]) := by
  refine ⟨?_, ?_, by decide, by decide⟩
  · intro cs c hc
    obtain ⟨hN, hP2, hP3⟩ := dedup_go_spec cs []
    have hperm : List.Perm (dedup_sort_candles cs) (dedup_candles cs) :=
    List.perm_insertionSort _ _
    exact key_truthy_ts (hP2 c (hperm.mem_iff.mp hc)).1
  · intro c h1 h2
    simp [candle_key, h2]

/-- C10 witness at concrete inputs: a well-formed point survives dedup with a
truthy timestamp, and a point with timestamp 3 and missing interval is keyed
by the bare timestamp. -/
theorem c10_falsy_fields_witness :
    py_truthy (Candle.mk (some 7) (some 1) 0).end_period_ts = true
    ∧ candle_key (Candle.mk (some 3) none 0)
        = PyKey.scalar (Candle.mk (some 3) none 0).end_period_ts :=
  ⟨c10_falsy_fields.1 [Candle.mk (some 7) (some 1) 0] (Candle.mk (some 7) (some 1) 0) (by decide),
   c10_falsy_fields.2.1 (Candle.mk (some 3) none 0) (by decide) (by decide)⟩

/-- C4: the claim (and the source docstring) that `initial_count` is
display-only is contradicted by the code: with `max_markets = 2` and one
page of three records, starting the count at 0 stores two records while
starting it at 1 stores one — the count changes what reaches the sink. -/
theorem c4_count_divergence :
    sink_records (continue_fetch_markets 0 2 1 5 [[BulkAttempt.resp 200 none c4_page]])
      = [⟨"M1", 1⟩, ⟨"M2", 2⟩]
    ∧ sink_records (continue_fetch_markets 1 2 1 5 [[BulkAttempt.resp 200 none c4_page]])
      = [⟨"M1", 1⟩]
    ∧ [(⟨"M1", 1⟩ : Market), ⟨"M2", 2⟩] ≠ [⟨"M1", 1⟩] := by
  exact ⟨by decide, by decide, by decide⟩

/- The chunked fetch walks every window independently: it equals the
concatenation of the per-window retry results. -/
theorem fetch_chunked_eq_flatten (d maxR sz endTs : Nat) (net : Nat × Nat → List HttpResp)
    (s : Nat) :
    fetch_candlesticks_chunked d maxR sz endTs net s
      = ((chunk_windows sz endTs s).map fun w => (fetch_chunk d maxR (net w)).1).flatten := by
  by_cases h : s < endTs
  · by_cases h2 : s < min (s + sz) endTs
    · have hrec := fetch_chunked_eq_flatten d maxR sz endTs net (min (s + sz) endTs)
      rw [fetch_candlesticks_chunked, chunk_windows]
      simp only [dif_pos h, dif_pos h2, List.map_cons, List.flatten_cons]
      rw [hrec]
    · rw [fetch_candlesticks_chunked, chunk_windows]
      simp only [dif_pos h, dif_neg h2]
      simp
  · rw [fetch_candlesticks_chunked, chunk_windows]
    simp only [dif_neg h]
    simp
termination_by endTs - s
decreasing_by
  omega

/- The tally loop counts successes, skips and errors of the outcome list on
top of whatever the accumulator already holds. -/
theorem run_tally_go_spec (outcomes : List MarketOutcome) : ∀ acc : Nat × Nat × Nat,
    run_tally_go acc outcomes
      = (acc.1 + outcomes.countP outcome_success,
         acc.2.1 + outcomes.countP outcome_skip,
         acc.2.2 + outcomes.countP outcome_error) := by
  induction outcomes with
  | nil => intro acc; simp [run_tally_go]
  | cons o rest ih =>
    intro acc
    cases o with
    | missingFields =>
      rw [run_tally_go, ih]
      simp [List.countP_cons, outcome_success, outcome_skip, outcome_error, Prod.ext_iff]
      omega
    | fetched copt =>
      cases copt with
      | none =>
        rw [run_tally_go, ih]
        simp [List.countP_cons, outcome_success, outcome_skip, outcome_error, Prod.ext_iff]
        omega
      | some cs =>
        by_cases hcs : cs = []
        · rw [run_tally_go, if_pos hcs, ih]
          simp [List.countP_cons, outcome_success, outcome_skip, outcome_error,
            Prod.ext_iff, hcs]
          omega
        · rw [run_tally_go, if_neg hcs, ih]
          simp [List.countP_cons, outcome_success, outcome_skip, outcome_error,
            Prod.ext_iff, hcs]
          omega

/-- C6: the claim that the run's final summary counts a chunk-level retry
exhaustion as an error is false at a concrete input: with two chunk windows
where the first exhausts all three attempts on 500s and the second succeeds,
the partial data is returned, the market counts as a success, and the error
count of the summary is 0 — the exhausted chunk is only logged, not tallied.
-/
theorem c6_counterexample :
    fetch_candlesticks_chunked 1 3 1 2 c6_net 0 = [Candle.mk (some 50) (some 1440) 0]
    ∧ run_tally [MarketOutcome.fetched (some [Candle.mk (some 50) (some 1440) 0])]
        = (1, 0, 0) := by
  constructor
  · rw [fetch_chunked_eq_flatten]
    have hw : chunk_windows 1 2 0 = [(0, 1), (1, 2)] := by
      rw [chunk_windows]
      norm_num
      rw [chunk_windows]
      norm_num
      rw [chunk_windows]
      norm_num
    rw [hw]
    decide
  · decide

/-- C6 (amended): a chunk that exhausts its retry budget is skipped without
aborting: the chunked fetch equals the concatenation of the per-window retry
results over all windows, so every later chunk is still requested and the
other chunks' partial results are still returned; and the run summary counts
an entity as an error exactly when its final candlesticks value is empty —
a failed chunk inside an otherwise successful entity is logged but tallied
as part of a success. -/
theorem c6_scoped_exhaustion :
    (∀ d maxR sz endTs net s,
      fetch_candlesticks_chunked d maxR sz endTs net s
        = ((chunk_windows sz endTs s).map fun w => (fetch_chunk d maxR (net w)).1).flatten)
    ∧ (∀ outcomes : List MarketOutcome,
      run_tally outcomes
        = (outcomes.countP outcome_success, outcomes.countP outcome_skip,
           outcomes.countP outcome_error)) := by
  constructor
  · intro d maxR sz endTs net s
    exact fetch_chunked_eq_flatten d maxR sz endTs net s
  · intro outcomes
    have hgo := run_tally_go_spec outcomes (0, 0, 0)
    simpa [run_tally] using hgo

/-- C7: when a page response lacks a truthy next cursor the run stops (the
remaining responses are never consumed), and on every termination path the
final flush hands exactly the accumulated records to the sink — in both bulk
fetchers the sink receives precisely `all_markets`, each fetched record
exactly once, in order. -/
theorem c7_flush_on_termination :
    (∀ maxM B s pg rest, py_truthy_str pg.cursor = false →
      fetch_markets_loop maxM B s (SingleResp.ok pg :: rest)
        = fetch_markets_loop maxM B s [SingleResp.ok pg])
    ∧ (∀ maxM B resps,
      sink_records (fetch_markets_by_status maxM B resps)
        = (fetch_markets_by_status maxM B resps).all_markets)
    ∧ (∀ c0 maxM B maxR pages,
      sink_records (continue_fetch_markets c0 maxM B maxR pages)
        = (continue_fetch_markets c0 maxM B maxR pages).all_markets) := by
  refine ⟨?_, ?_, ?_⟩
  · intro maxM B s pg rest hc
    by_cases h : maxM ≤ s.total_fetched
    · simp [fetch_markets_loop, h]
    · by_cases he : pg.hasError
      · simp [fetch_markets_loop, h, he]
      · by_cases hm : pg.markets = []
        · simp [fetch_markets_loop, h, he, hm]
        · simp [fetch_markets_loop, h, he, hm, hc]
  · intro maxM B resps
    have hinv := fetch_markets_loop_inv maxM B resps ⟨[], [], [], 0⟩ (by simp)
    unfold fetch_markets_by_status
    rw [final_flush_all]
    exact final_flush_sink _ hinv
  · intro c0 maxM B maxR pages
    have hinv := continue_fetch_loop_inv maxM B maxR pages ⟨[], [], [], c0⟩ (by simp)
    unfold continue_fetch_markets
    rw [final_flush_all]
    exact final_flush_sink _ hinv

/-- C7 witness at a concrete input: a page with no cursor makes the loop
ignore every later response. -/
theorem c7_flush_on_termination_witness :
    fetch_markets_loop 5 1 ⟨[], [], [], 0⟩ [SingleResp.ok c7_page, SingleResp.fail]
      = fetch_markets_loop 5 1 ⟨[], [], [], 0⟩ [SingleResp.ok c7_page] :=
  c7_flush_on_termination.1 5 1 ⟨[], [], [], 0⟩ c7_page [SingleResp.fail] (by decide)

/- The per-record body keeps the buffer length congruent to the number of
records accumulated this run, modulo the batch size. -/
theorem process_market_mod (B : Nat) (hB : 0 < B) (s : BulkState) (m : Market)
    (hs : s.buffer.length = s.all_markets.length % B) :
    (process_market B s m).buffer.length = (process_market B s m).all_markets.length % B := by
  have hlt : s.buffer.length < B := hs ▸ Nat.mod_lt _ hB
  have hdm := Nat.div_add_mod s.all_markets.length B
  simp only [process_market, List.length_append, List.length_cons, List.length_nil]
  by_cases h : B ≤ s.buffer.length + (0 + 1)
  · rw [if_pos h]
    simp only [List.length_nil, List.length_append, List.length_cons]
    have hrw : s.all_markets.length + 1 = B * (s.all_markets.length / B + 1) := by
      rw [Nat.mul_add, Nat.mul_one]
      omega
    rw [hrw, Nat.mul_mod_right]
  · rw [if_neg h]
    simp only [List.length_append, List.length_cons, List.length_nil]
    have hrw : s.all_markets.length + 1
        = B * (s.all_markets.length / B) + (s.buffer.length + 1) := by omega
    rw [hrw, Nat.mul_add_mod, Nat.mod_eq_of_lt (by omega)]

theorem process_markets_mod (maxM B : Nat) (hB : 0 < B) (ms : List Market) :
    ∀ s : BulkState, s.buffer.length = s.all_markets.length % B →
      (process_markets maxM B s ms).buffer.length
        = (process_markets maxM B s ms).all_markets.length % B := by
  induction ms with
  | nil => intro s hs; simpa [process_markets] using hs
  | cons m rest ih =>
    intro s hs
    by_cases h : maxM ≤ s.total_fetched
    · simpa [process_markets, h] using hs
    · simpa [process_markets, h] using ih _ (process_market_mod B hB s m hs)

theorem fetch_markets_loop_mod (maxM B : Nat) (hB : 0 < B) (resps : List SingleResp) :
    ∀ s : BulkState, s.buffer.length = s.all_markets.length % B →
      (fetch_markets_loop maxM B s resps).buffer.length
        = (fetch_markets_loop maxM B s resps).all_markets.length % B := by
  induction resps with
  | nil => intro s hs; simpa [fetch_markets_loop] using hs
  | cons r rest ih =>
    intro s hs
    cases r with
    | fail =>
      by_cases h : maxM ≤ s.total_fetched <;> simpa [fetch_markets_loop, h] using hs
    | ok pg =>
      by_cases h : maxM ≤ s.total_fetched
      · simpa [fetch_markets_loop, h] using hs
      · by_cases he : pg.hasError
        · simpa [fetch_markets_loop, h, he] using hs
        · by_cases hm : pg.markets = []
          · simpa [fetch_markets_loop, h, he, hm] using hs
          · have hinv := process_markets_mod maxM B hB pg.markets s hs
            by_cases hc : py_truthy_str pg.cursor = true
            · simpa [fetch_markets_loop, h, he, hm, hc] using ih _ hinv
            · simpa [fetch_markets_loop, h, he, hm, hc] using hinv

theorem continue_fetch_loop_mod (maxM B maxR : Nat) (hB : 0 < B)
    (pages : List (List BulkAttempt)) :
    ∀ s : BulkState, s.buffer.length = s.all_markets.length % B →
      (continue_fetch_loop maxM B maxR s pages).buffer.length
        = (continue_fetch_loop maxM B maxR s pages).all_markets.length % B := by
  induction pages with
  | nil => intro s hs; simpa [continue_fetch_loop] using hs
  | cons attempts rest ih =>
    intro s hs
    by_cases h : maxM ≤ s.total_fetched
    · simpa [continue_fetch_loop, h] using hs
    · match hr : (fetch_page maxR attempts).1 with
      | none => simpa [continue_fetch_loop, h, hr] using hs
      | some pg =>
        by_cases he : pg.hasError
        · simpa [continue_fetch_loop, h, hr, he] using hs
        · by_cases hm : pg.markets = []
          · simpa [continue_fetch_loop, h, hr, he, hm] using hs
          · have hinv := process_markets_mod maxM B hB pg.markets s hs
            by_cases hc : py_truthy_str pg.cursor = true
            · simpa [continue_fetch_loop, h, hr, he, hm, hc] using ih _ hinv
            · simpa [continue_fetch_loop, h, hr, he, hm, hc] using hinv

/-- C8: with batch size B ≥ 1 the shared per-record body keeps the invariant
that the buffer length equals the number of records accumulated this run
modulo B; consequently, at the end of any run of either paging loop the
buffer holds fewer than B records, and whenever the records accumulated are
a multiple of B (in particular after every k·B records) the buffer is empty,
having just been flushed. -/
theorem c8_bounded_buffer (B : Nat) (hB : 0 < B) :
    (∀ (s : BulkState) (m : Market), s.buffer.length = s.all_markets.length % B →
      (process_market B s m).buffer.length = (process_market B s m).all_markets.length % B)
    ∧ (∀ maxM resps,
        (fetch_markets_loop maxM B ⟨[], [], [], 0⟩ resps).buffer.length
          = (fetch_markets_loop maxM B ⟨[], [], [], 0⟩ resps).all_markets.length % B
        ∧ (fetch_markets_loop maxM B ⟨[], [], [], 0⟩ resps).buffer.length < B
        ∧ (B ∣ (fetch_markets_loop maxM B ⟨[], [], [], 0⟩ resps).all_markets.length →
            (fetch_markets_loop maxM B ⟨[], [], [], 0⟩ resps).buffer = []))
    ∧ (∀ c0 maxM maxR pages,
        (continue_fetch_loop maxM B maxR ⟨[], [], [], c0⟩ pages).buffer.length
          = (continue_fetch_loop maxM B maxR ⟨[], [], [], c0⟩ pages).all_markets.length % B
        ∧ (B ∣ (continue_fetch_loop maxM B maxR ⟨[], [], [], c0⟩ pages).all_markets.length →
            (continue_fetch_loop maxM B maxR ⟨[], [], [], c0⟩ pages).buffer = [])) := by
  refine ⟨process_market_mod B hB, ?_, ?_⟩
  · intro maxM resps
    have hmod := fetch_markets_loop_mod maxM B hB resps ⟨[], [], [], 0⟩ (by simp)
    refine ⟨hmod, hmod ▸ Nat.mod_lt _ hB, ?_⟩
    intro hdvd
    obtain ⟨q, hq⟩ := hdvd
    have h0 : (fetch_markets_loop maxM B ⟨[], [], [], 0⟩ resps).all_markets.length % B = 0 := by
      rw [hq, Nat.mul_mod_right]
    have hlen : (fetch_markets_loop maxM B ⟨[], [], [], 0⟩ resps).buffer.length = 0 := by
      rw [hmod, h0]
    exact List.length_eq_zero.mp hlen
  · intro c0 maxM maxR pages
    have hmod := continue_fetch_loop_mod maxM B maxR hB pages ⟨[], [], [], c0⟩ (by simp)
    refine ⟨hmod, ?_⟩
    intro hdvd
    obtain ⟨q, hq⟩ := hdvd
    have h0 : (continue_fetch_loop maxM B maxR ⟨[], [], [], c0⟩ pages).all_markets.length % B
        = 0 := by
      rw [hq, Nat.mul_mod_right]
    have hlen : (continue_fetch_loop maxM B maxR ⟨[], [], [], c0⟩ pages).buffer.length = 0 := by
      rw [hmod, h0]
    exact List.length_eq_zero.mp hlen

/-- C8 witness at a concrete input: batch size 2, one record processed from
the empty state leaves one buffered record, matching 1 % 2. -/
theorem c8_bounded_buffer_witness :
    (process_market 2 ⟨[], [], [], 0⟩ ⟨"M1", 1⟩).buffer.length
      = (process_market 2 ⟨[], [], [], 0⟩ ⟨"M1", 1⟩).all_markets.length % 2 :=
  (c8_bounded_buffer 2 (by decide)).1 ⟨[], [], [], 0⟩ ⟨"M1", 1⟩ (by decide)

/- Updating one key of the cache leaves every other key's lookup unchanged. -/
theorem cache_get_put (cache : List (String × String)) (k v k' : String) :
    cache_get (cache_put cache k v) k' = if k' = k then some v else cache_get cache k' := by
  induction cache with
  | nil =>
    simp only [cache_put, cache_get]
    by_cases h : k = k'
    · subst h
      simp
    · rw [if_neg h, if_neg fun hh : k' = k => h hh.symm]
  | cons e rest ih =>
    simp only [cache_put]
    by_cases hek : e.1 = k
    · rw [if_pos hek]
      simp only [cache_get]
      by_cases h : k = k'
      · subst h
        simp
      · rw [if_neg h, if_neg fun hh : k' = k => h hh.symm,
          if_neg fun hh : e.1 = k' => h (hek.symm.trans hh)]
    · rw [if_neg hek]
      simp only [cache_get]
      by_cases h : e.1 = k'
      · have hk : ¬ k' = k := fun hh => hek ((h.trans hh) ▸ rfl)
        rw [if_pos h, if_neg hk, if_pos h]
      · rw [if_neg h, ih, if_neg h]

/-- C9: the id-resolution cache never stores a failed or empty resolution:
when the retry-wrapped lookup yields nothing truthy the cache is left
unchanged (so a later market with the same event ticker triggers a fresh
resolution); every cache entry readable after resolution is either an old
entry or a nonempty ticker; and the lookup loop itself returns either
nothing or a nonempty ticker. -/
theorem c9_cache_no_empty :
    (∀ cache ms ev lr, py_truthy_str lr = false →
      (resolve_series_ticker cache ms ev lr).2 = cache)
    ∧ (∀ cache ms ev lr k v,
        cache_get (resolve_series_ticker cache ms ev lr).2 k = some v →
        cache_get cache k = some v ∨ v ≠ "")
    ∧ (∀ d maxR a fuel resps,
        series_lookup_go d maxR a fuel resps = none
        ∨ py_truthy_str (series_lookup_go d maxR a fuel resps) = true) := by
  refine ⟨?_, ?_, ?_⟩
  · intro cache ms ev lr h
    unfold resolve_series_ticker
    split_ifs with h1 h2 h3
    · rfl
    · rfl
    · rw [h] at h3
      exact absurd h3 (by simp)
    · rfl
  · intro cache ms ev lr k v hv
    unfold resolve_series_ticker at hv
    split_ifs at hv with h1 h2 h3
    · exact Or.inl hv
    · exact Or.inl hv
    · rw [cache_get_put] at hv
      by_cases hk : k = ev
      · rw [if_pos hk] at hv
        right
        cases lr with
        | none => simp [py_truthy_str] at h3
        | some s =>
          simp [py_truthy_str] at h3
          simp only [Option.getD_some] at hv
          injection hv with hv'
          rw [← hv']
          exact h3
      · rw [if_neg hk] at hv
        exact Or.inl hv
    · exact Or.inl hv
  · intro d maxR a fuel resps
    induction resps generalizing a fuel with
    | nil =>
      cases fuel with
      | zero => exact Or.inl rfl
      | succ fuel => exact Or.inl rfl
    | cons r rest ih =>
      cases fuel with
      | zero => exact Or.inl rfl
      | succ fuel =>
        cases r with
        | rate ra => simpa [series_lookup_go] using ih (a + 1) fuel
        | ok events =>
          cases hev : events.head? with
          | some st =>
            by_cases hst : py_truthy_str st = true
            · right
              simp [series_lookup_go, hev, hst]
            · by_cases hlt : a < maxR - 1
              · simpa [series_lookup_go, hev, hst, hlt] using ih (a + 1) fuel
              · left
                simp [series_lookup_go, hev, hst, hlt]
          | none =>
            by_cases hlt : a < maxR - 1
            · simpa [series_lookup_go, hev, hlt] using ih (a + 1) fuel
            · left
              simp [series_lookup_go, hev, hlt]
        | notOk code =>
          by_cases hlt : a < maxR - 1
          · simpa [series_lookup_go, hlt] using ih (a + 1) fuel
          · left
            simp [series_lookup_go, hlt]
        | netErr =>
          by_cases hlt : a < maxR - 1
          · simpa [series_lookup_go, hlt] using ih (a + 1) fuel
          · left
            simp [series_lookup_go, hlt]

/-- C9 witness at concrete inputs: a failed lookup leaves the empty cache
empty, and a pre-existing entry read back after a no-op resolution is either
old or nonempty. -/
theorem c9_cache_no_empty_witness :
    (resolve_series_ticker [] none "EVT" none).2 = []
    ∧ (cache_get [("EVT", "SER")] "EVT" = some "SER" ∨ "SER" ≠ "") :=
  ⟨c9_cache_no_empty.1 [] none "EVT" none rfl,
   c9_cache_no_empty.2.1 [("EVT", "SER")] none "EVT" none "EVT" "SER" (by decide)⟩
